import Mathlib

/-!
Shallow embedding of the fleet-monitor core (Go): the `storage.DeviceStore`
registry and the statistics functions `calculateUptime` /
`calculateAvgUploadTime` from the HTTP handlers package.

Modelling conventions:
* `time.Time` heartbeat timestamps are integers (nanoseconds since the Unix
  epoch); `time.Time.Sub` returns the difference saturated to the `Duration`
  (int64) range, modelled by `timeSub`.
* Go `float64` arithmetic in `calculateUptime` is modelled by exact rational
  arithmetic (`ℚ`); every value the spec constrains is exactly representable
  in `float64` and the operations on them are exact, so the models agree there.
* Go `int64` accumulation in `calculateAvgUploadTime` wraps modulo 2^64; the
  embedding keeps that wrap explicit (`wrap64`). Go integer division truncates
  toward zero, which is `Int.tdiv`.
* The Go map `map[string]*DeviceData` is an association list with unique keys;
  map assignment replaces the existing binding in place.
* File I/O and CSV parsing are external collaborators: the loader receives the
  outcome of reading the source, either an error (unreadable source) or the
  parsed records.
-/

namespace FleetMonitor

/-- Tracking data for a single device, mirroring `storage.DeviceData`:
heartbeat timestamps and upload times in nanoseconds. -/
structure DeviceData where
  heartbeats : List Int
  uploadTimes : List Int
deriving Repr, DecidableEq

/-- The registry `storage.DeviceStore` (`devices map[string]*DeviceData`). -/
abbrev DeviceStore := List (String × DeviceData)

/-- Map lookup `s.devices[deviceID]`. -/
def storeLookup : DeviceStore → String → Option DeviceData
  | [], _ => none
  | (k, v) :: rest, id => if k = id then some v else storeLookup rest id

/-- Map assignment `s.devices[deviceID] = d`: replaces the existing binding,
otherwise appends a new one. -/
def storeInsert : DeviceStore → String → DeviceData → DeviceStore
  | [], id, d => [(id, d)]
  | (k, v) :: rest, id, d =>
      if k = id then (k, d) :: rest else (k, v) :: storeInsert rest id d

/-- A freshly registered device: two empty sample sequences. -/
def emptyDeviceData : DeviceData := ⟨[], []⟩

/-- `DeviceExists`: membership test on the registry map. -/
def deviceExists (s : DeviceStore) (id : String) : Bool :=
  (storeLookup s id).isSome

/-- One iteration of the load loop: a record with a missing or empty first
field is skipped, any other record registers its first field with empty
sample sequences. -/
def loadStep (st : DeviceStore) (record : List String) : DeviceStore :=
  match record with
  | [] => st
  | id :: _ => if id = "" then st else storeInsert st id emptyDeviceData

/-- `LoadDevicesFromCSV`. The argument `readResult` is the outcome of opening
and reading the CSV source (`os.Open` + `csv.ReadAll`): an error when the
source is unreadable, otherwise the list of records, each a list of fields.
The code skips the header record (index 0) and registers every later record
whose first field exists and is non-empty, with empty sample sequences. -/
def loadDevicesFromCSV (s : DeviceStore)
    (readResult : Except String (List (List String))) :
    Except String DeviceStore :=
  match readResult with
  | .error e => .error ("failed to read CSV file: " ++ e)
  | .ok records => .ok ((records.drop 1).foldl loadStep s)

/-- `AddHeartbeat`: fails with "device not found" for an unknown identifier,
otherwise appends the timestamp to that device's heartbeat sequence. -/
def addHeartbeat (s : DeviceStore) (id : String) (timestamp : Int) :
    Except String DeviceStore :=
  match storeLookup s id with
  | none => .error "device not found"
  | some device =>
      .ok (storeInsert s id
        { device with heartbeats := device.heartbeats ++ [timestamp] })

/-- `AddUploadTime`: fails with "device not found" for an unknown identifier,
otherwise appends the upload time to that device's upload-time sequence. -/
def addUploadTime (s : DeviceStore) (id : String) (uploadTime : Int) :
    Except String DeviceStore :=
  match storeLookup s id with
  | none => .error "device not found"
  | some device =>
      .ok (storeInsert s id
        { device with uploadTimes := device.uploadTimes ++ [uploadTime] })

/-- The Go loop `for i, v := range src { dst[i] = v }` used by the two copy
helpers in `GetDeviceData`. -/
def copyLoop {α : Type} : Nat → List α → List α → List α
  | _, [], dst => dst
  | i, v :: src, dst => copyLoop (i + 1) src (dst.set i v)

/-- `copySlice`: element-wise copy of the heartbeat slice into a freshly
allocated slice of the same length (`make([]time.Time, len(src))`). -/
def copySlice (src : List Int) : List Int :=
  copyLoop 0 src (List.replicate src.length 0)

/-- `copyInt64Slice`: element-wise copy of the upload-time slice into a freshly
allocated slice of the same length (`make([]int64, len(src))`). -/
def copyInt64Slice (src : List Int) : List Int :=
  copyLoop 0 src (List.replicate src.length 0)

/-- `GetDeviceData`: fails with "device not found" for an unknown identifier,
otherwise returns a freshly copied `DeviceData`. -/
def getDeviceData (s : DeviceStore) (id : String) : Except String DeviceData :=
  match storeLookup s id with
  | none => .error "device not found"
  | some device =>
      .ok { heartbeats := copySlice device.heartbeats,
            uploadTimes := copyInt64Slice device.uploadTimes }

/-! ## Statistics engine -/

/-- Nanoseconds in one minute (`time.Minute`). -/
def minuteNs : Int := 60000000000

/-- Go `time.Time.Sub t u`: the difference `t - u` in nanoseconds, saturated
to the `Duration` (int64) range — `minDuration` (-2^63) on negative overflow,
`maxDuration` (2^63-1) on positive overflow. -/
def timeSub (t u : Int) : Int :=
  if t - u < -(2 ^ 63) then -(2 ^ 63)
  else if 2 ^ 63 - 1 < t - u then 2 ^ 63 - 1
  else t - u

/-- `calculateUptime` from the handlers package. The Go code sorts a private
copy of the heartbeats ascending, takes first and last, converts the span
`last.Sub(first)` to fractional minutes (`Duration.Minutes`), and divides. -/
def calculateUptime (heartbeats : List Int) : ℚ :=
  if heartbeats.length = 0 then 0
  else if heartbeats.length = 1 then 100
  else
    let sortedHeartbeats := List.insertionSort (· ≤ ·) heartbeats
    let first := sortedHeartbeats.headD 0
    let lastHb := sortedHeartbeats.getLastD 0
    let duration : Int := timeSub lastHb first
    let minutes : ℚ := (duration : ℚ) / (minuteNs : ℚ)
    if minutes < 1 then 100
    else ((heartbeats.length : ℚ) / minutes) * 100

/-- Signed 64-bit wraparound: the value of a Go `int64` addition result. -/
def wrap64 (x : Int) : Int := (x + 2 ^ 63) % 2 ^ 64 - 2 ^ 63

/-- One step of Go's `fmtFrac` loop: processes `prec` low decimal digits of
`v`, accumulating the printed digits (trailing zeros omitted). Returns the
remaining value, the print flag, and the digits emitted so far. -/
def fmtFracGo : Nat → Nat → Bool → String → Nat × Bool × String
  | 0, v, print, acc => (v, print, acc)
  | prec + 1, v, print, acc =>
      let digit := v % 10
      let doPrint := print || digit != 0
      let acc' := if doPrint then (Char.ofNat (48 + digit)).toString ++ acc else acc
      fmtFracGo prec (v / 10) doPrint acc'

/-- Go's `fmtFrac`: formats the fraction `v / 10^prec`, omitting trailing
zeros and the decimal point when the fraction is zero; returns the integral
part `v / 10^prec` and the formatted fraction (empty or ".digits"). -/
def fmtFrac (v : Nat) (prec : Nat) : Nat × String :=
  let r := fmtFracGo prec v false ""
  (r.1, if r.2.1 then "." ++ r.2.2 else r.2.2)

/-- Go's `time.Duration.String` on a duration of `d` nanoseconds. -/
def durationString (d : Int) : String :=
  let u := d.natAbs
  let body :=
    if u < 1000000000 then
      if u = 0 then "0s"
      else
        let pu : Nat × String :=
          if u < 1000 then (0, "ns")
          else if u < 1000000 then (3, "µs")
          else (6, "ms")
        let f := fmtFrac u pu.1
        Nat.repr f.1 ++ f.2 ++ pu.2
    else
      let f := fmtFrac u 9
      let secPart := Nat.repr (f.1 % 60) ++ f.2 ++ "s"
      let m := f.1 / 60
      if m = 0 then secPart
      else
        let minPart := Nat.repr (m % 60) ++ "m" ++ secPart
        let h := m / 60
        if h = 0 then minPart else Nat.repr h ++ "h" ++ minPart
  if d < 0 then "-" ++ body else body

/-- `calculateAvgUploadTime` from the handlers package: `int64` sum (wrapping),
truncating division by the count, formatted by `Duration.String`. -/
def calculateAvgUploadTime (uploadTimes : List Int) : String :=
  if uploadTimes.length = 0 then "0s"
  else
    let sum := uploadTimes.foldl (fun acc t => wrap64 (acc + t)) 0
    let avgNanos := sum.tdiv (uploadTimes.length : Int)
    durationString avgNanos

/-! ## Spec-side definitions -/

/-- Minimum of a list with a default for the empty list (spec side). -/
def listMinD (l : List Int) (dflt : Int) : Int :=
  match l with
  | [] => dflt
  | x :: xs => xs.foldl min x

/-- Maximum of a list with a default for the empty list (spec side). -/
def listMaxD (l : List Int) (dflt : Int) : Int :=
  match l with
  | [] => dflt
  | x :: xs => xs.foldl max x

/-- Uptime as the spec words it: case analysis on the length, with the span
taken between the maximum and minimum timestamp. -/
def specUptime (l : List Int) : ℚ :=
  if l.length = 0 then 0
  else if l.length = 1 then 100
  else
    let span : ℚ := ((listMaxD l 0 - listMinD l 0 : Int) : ℚ) / (minuteNs : ℚ)
    if span < 1 then 100
    else ((l.length : ℚ) / span) * 100

/-! ## Division-checked variants (totality) -/

/-- Rational division guarded against a zero divisor. -/
def divQChecked (a b : ℚ) : Option ℚ :=
  if b = 0 then none else some (a / b)

/-- Truncating integer division guarded against a zero divisor (a zero divisor
would be a Go runtime panic). -/
def divIntChecked (a b : Int) : Option Int :=
  if b = 0 then none else some (a.tdiv b)

/-- `calculateUptime` with every division checked: returns `none` if any
division in the control path has a zero divisor. -/
def calculateUptimeChecked (heartbeats : List Int) : Option ℚ :=
  if heartbeats.length = 0 then some 0
  else if heartbeats.length = 1 then some 100
  else
    let sortedHeartbeats := List.insertionSort (· ≤ ·) heartbeats
    let first := sortedHeartbeats.headD 0
    let lastHb := sortedHeartbeats.getLastD 0
    let duration : Int := timeSub lastHb first
    (divQChecked (duration : ℚ) (minuteNs : ℚ)).bind fun minutes =>
      if minutes < 1 then some 100
      else (divQChecked (heartbeats.length : ℚ) minutes).map fun q => q * 100

/-- `calculateAvgUploadTime` with the division checked. -/
def calculateAvgUploadTimeChecked (uploadTimes : List Int) : Option String :=
  if uploadTimes.length = 0 then some "0s"
  else
    let sum := uploadTimes.foldl (fun acc t => wrap64 (acc + t)) 0
    (divIntChecked sum (uploadTimes.length : Int)).map durationString

/-- The registry a caller holds after an append call: the new store on
success, the old store on failure. -/
def afterStore (r : Except String DeviceStore) (s : DeviceStore) : DeviceStore :=
  match r with
  | .ok s' => s'
  | .error _ => s

/-! ## Registry lemmas -/

theorem storeLookup_insert_self (s : DeviceStore) (id : String) (d : DeviceData) :
    storeLookup (storeInsert s id d) id = some d := by
  induction s with
  | nil => simp [storeInsert, storeLookup]
  | cons kv rest ih =>
      obtain ⟨k, v⟩ := kv
      by_cases h : k = id
      · simp [storeInsert, storeLookup, h]
      · simp [storeInsert, storeLookup, h, ih]

theorem storeLookup_insert_other (s : DeviceStore) (id id' : String) (d : DeviceData)
    (h : id' ≠ id) : storeLookup (storeInsert s id d) id' = storeLookup s id' := by
  induction s with
  | nil => simp [storeInsert, storeLookup, if_neg (Ne.symm h)]
  | cons kv rest ih =>
      obtain ⟨k, v⟩ := kv
      by_cases hk : k = id
      · subst hk
        simp [storeInsert, storeLookup, if_neg (Ne.symm h)]
      · by_cases hk' : k = id'
        · simp [storeInsert, storeLookup, hk, hk', h]
        · simp [storeInsert, storeLookup, hk, hk', ih]

theorem copyLoop_cons {α : Type} (src : List α) :
    ∀ (i : Nat) (a : α) (dst : List α),
      copyLoop (i + 1) src (a :: dst) = a :: copyLoop i src dst := by
  induction src with
  | nil => intro i a dst; simp [copyLoop]
  | cons v rest ih =>
      intro i a dst
      show copyLoop (i + 2) rest ((a :: dst).set (i + 1) v) =
        a :: copyLoop (i + 1) rest (dst.set i v)
      rw [List.set_cons_succ]
      exact ih (i + 1) a (dst.set i v)

theorem copyLoop_eq_self {α : Type} :
    ∀ (src dst : List α), dst.length = src.length → copyLoop 0 src dst = src := by
  intro src
  induction src with
  | nil =>
      intro dst h
      have : dst = [] := List.eq_nil_of_length_eq_zero h
      simp [this, copyLoop]
  | cons v rest ih =>
      intro dst h
      match dst with
      | [] => simp at h
      | a :: dst' =>
          show copyLoop 1 rest ((a :: dst').set 0 v) = v :: rest
          rw [List.set_cons_zero, copyLoop_cons]
          have hl : dst'.length = rest.length := by simpa using h
          rw [ih dst' hl]

theorem copySlice_eq (src : List Int) : copySlice src = src :=
  copyLoop_eq_self src _ (by simp)

theorem copyInt64Slice_eq (src : List Int) : copyInt64Slice src = src :=
  copyLoop_eq_self src _ (by simp)

/-- C3: on an unregistered identifier, both append operations fail with
"device not found" and the registry is unchanged: the caller keeps the old
store, whose every lookup (hence every device's two sequences and the set of
registered identifiers) is untouched. -/
theorem add_notFound_noSideEffect (s : DeviceStore) (id : String) (ts v : Int)
    (h : storeLookup s id = none) :
    addHeartbeat s id ts = .error "device not found" ∧
    addUploadTime s id v = .error "device not found" ∧
    afterStore (addHeartbeat s id ts) s = s ∧
    afterStore (addUploadTime s id v) s = s := by
  refine ⟨?_, ?_, ?_, ?_⟩ <;> simp [addHeartbeat, addUploadTime, afterStore, h]

theorem add_notFound_noSideEffect_witness :
    storeLookup [("dev1", ⟨[7], [9]⟩)] "ghost" = none ∧
    addHeartbeat [("dev1", ⟨[7], [9]⟩)] "ghost" 5 = .error "device not found" ∧
    addUploadTime [("dev1", ⟨[7], [9]⟩)] "ghost" 6 = .error "device not found" :=
  ⟨by decide,
   (add_notFound_noSideEffect [("dev1", ⟨[7], [9]⟩)] "ghost" 5 6 (by decide)).1,
   (add_notFound_noSideEffect [("dev1", ⟨[7], [9]⟩)] "ghost" 5 6 (by decide)).2.1⟩

/-- C10: a successful append adds exactly the given value at the end of the
addressed sequence and changes nothing else: the device's other sequence is
kept, and every other identifier's lookup result is unchanged. -/
theorem add_append_frame (s : DeviceStore) (id : String) (d : DeviceData) (ts v : Int)
    (h : storeLookup s id = some d) :
    (∃ s₁, addHeartbeat s id ts = .ok s₁ ∧
        storeLookup s₁ id = some ⟨d.heartbeats ++ [ts], d.uploadTimes⟩ ∧
        ∀ id', id' ≠ id → storeLookup s₁ id' = storeLookup s id') ∧
    (∃ s₂, addUploadTime s id v = .ok s₂ ∧
        storeLookup s₂ id = some ⟨d.heartbeats, d.uploadTimes ++ [v]⟩ ∧
        ∀ id', id' ≠ id → storeLookup s₂ id' = storeLookup s id') := by
  constructor
  · refine ⟨storeInsert s id ⟨d.heartbeats ++ [ts], d.uploadTimes⟩, ?_, ?_, ?_⟩
    · simp [addHeartbeat, h]
    · exact storeLookup_insert_self s id _
    · intro id' hne
      exact storeLookup_insert_other s id id' _ hne
  · refine ⟨storeInsert s id ⟨d.heartbeats, d.uploadTimes ++ [v]⟩, ?_, ?_, ?_⟩
    · simp [addUploadTime, h]
    · exact storeLookup_insert_self s id _
    · intro id' hne
      exact storeLookup_insert_other s id id' _ hne

theorem add_append_frame_witness :
    addHeartbeat [("dev1", ⟨[7], [9]⟩), ("dev2", ⟨[1], [2]⟩)] "dev1" 8 =
      .ok [("dev1", ⟨[7, 8], [9]⟩), ("dev2", ⟨[1], [2]⟩)] ∧
    storeLookup [("dev1", ⟨[7, 8], [9]⟩), ("dev2", ⟨[1], [2]⟩)] "dev2" =
      storeLookup [("dev1", ⟨[7], [9]⟩), ("dev2", ⟨[1], [2]⟩)] "dev2" := by
  obtain ⟨⟨s₁, h₁, h₂, hframe⟩, _⟩ :=
    add_append_frame [("dev1", ⟨[7], [9]⟩), ("dev2", ⟨[1], [2]⟩)] "dev1" ⟨[7], [9]⟩ 8 3
      (by decide)
  have hs : addHeartbeat [("dev1", ⟨[7], [9]⟩), ("dev2", ⟨[1], [2]⟩)] "dev1" 8 =
      .ok [("dev1", ⟨[7, 8], [9]⟩), ("dev2", ⟨[1], [2]⟩)] := by rfl
  have hval : s₁ = [("dev1", ⟨[7, 8], [9]⟩), ("dev2", ⟨[1], [2]⟩)] :=
    (Except.ok.injEq _ _).mp (h₁.symm.trans hs)
  refine ⟨hs, ?_⟩
  have := hframe "dev2" (by decide)
  rw [hval] at this
  exact this

/-- C6: `GetDeviceData` on a registered device returns a copy whose contents
equal the stored sequences; the store is not an output of the call, so a
second call on the same store returns the same values; an unknown identifier
fails with "device not found". -/
theorem getDeviceData_snapshot (s : DeviceStore) (id : String) :
    (∀ d, storeLookup s id = some d →
        getDeviceData s id = .ok d ∧
        ∀ d', getDeviceData s id = .ok d' → d' = d) ∧
    (storeLookup s id = none → getDeviceData s id = .error "device not found") := by
  constructor
  · intro d h
    have hok : getDeviceData s id = .ok d := by
      simp [getDeviceData, h, copySlice_eq, copyInt64Slice_eq]
    exact ⟨hok, fun d' h' => by rw [hok] at h'; exact (Except.ok.injEq _ _).mp h' |>.symm⟩
  · intro h
    simp [getDeviceData, h]

theorem getDeviceData_snapshot_witness :
    getDeviceData [("dev1", ⟨[1, 2], [3]⟩)] "dev1" = .ok ⟨[1, 2], [3]⟩ ∧
    getDeviceData [("dev1", ⟨[1, 2], [3]⟩)] "ghost" = .error "device not found" :=
  ⟨((getDeviceData_snapshot [("dev1", ⟨[1, 2], [3]⟩)] "dev1").1 ⟨[1, 2], [3]⟩ (by decide)).1,
   (getDeviceData_snapshot [("dev1", ⟨[1, 2], [3]⟩)] "ghost").2 (by decide)⟩

/-! ## Bulk-load lemmas -/

theorem loadFold_preserves_empty :
    ∀ (records : List (List String)) (st : DeviceStore) (id : String),
      storeLookup st id = some emptyDeviceData →
      storeLookup (records.foldl loadStep st) id = some emptyDeviceData := by
  intro records
  induction records with
  | nil => intro st id h; simpa using h
  | cons r rest ih =>
      intro st id h
      rw [List.foldl_cons]
      apply ih
      match r with
      | [] => simpa [loadStep] using h
      | id0 :: fields =>
          by_cases h0 : id0 = ""
          · simpa [loadStep, h0] using h
          · by_cases hid : id = id0
            · subst hid
              simp [loadStep, h0, storeLookup_insert_self]
            · simpa [loadStep, h0, storeLookup_insert_other st id0 id _ hid] using h

theorem loadFold_registers :
    ∀ (records : List (List String)) (st : DeviceStore) (id : String),
      (∃ r ∈ records, r.head? = some id) → id ≠ "" →
      storeLookup (records.foldl loadStep st) id = some emptyDeviceData := by
  intro records
  induction records with
  | nil => intro st id h _; simp at h
  | cons r rest ih =>
      intro st id h hne
      obtain ⟨r', hr', hhead⟩ := h
      rw [List.foldl_cons]
      rcases List.mem_cons.mp hr' with rfl | hmem
      · match r' with
        | [] => simp at hhead
        | id0 :: fields =>
            have : id0 = id := by simpa using hhead
            subst this
            apply loadFold_preserves_empty
            simp [loadStep, hne, storeLookup_insert_self]
      · exact ih _ id ⟨r', hmem, hhead⟩ hne

theorem loadFold_frame :
    ∀ (records : List (List String)) (st : DeviceStore) (id : String),
      (∀ r ∈ records, r.head? ≠ some id) →
      storeLookup (records.foldl loadStep st) id = storeLookup st id := by
  intro records
  induction records with
  | nil => intro st id _; rfl
  | cons r rest ih =>
      intro st id h
      rw [List.foldl_cons]
      rw [ih _ id (fun r' hr' => h r' (List.mem_cons_of_mem _ hr'))]
      match r with
      | [] => rfl
      | id0 :: fields =>
          by_cases h0 : id0 = ""
          · simp [loadStep, h0]
          · have hne : id ≠ id0 := by
              intro hid
              exact h (id0 :: fields) (List.mem_cons_self _ _) (by simp [hid])
            simp [loadStep, h0, storeLookup_insert_other st id0 id _ hne]

/-- C9: loading from a readable source always succeeds; every non-header
record whose first field is a non-empty identifier ends up registered with
empty sample sequences; records with a missing or empty identifier are
skipped without error and without effect; an unreadable source yields an
error. -/
theorem loadDevicesFromCSV_spec (s : DeviceStore) (records : List (List String))
    (e : String) :
    (∃ s', loadDevicesFromCSV s (.ok records) = .ok s' ∧
        (∀ id, id ≠ "" → (∃ r ∈ records.drop 1, r.head? = some id) →
          storeLookup s' id = some emptyDeviceData) ∧
        (∀ id, (∀ r ∈ records.drop 1, r.head? ≠ some id) →
          storeLookup s' id = storeLookup s id)) ∧
    (∃ msg, loadDevicesFromCSV s (.error e) = .error msg) := by
  refine ⟨⟨(records.drop 1).foldl loadStep s, rfl, ?_, ?_⟩,
    "failed to read CSV file: " ++ e, rfl⟩
  · intro id hne hmem
    exact loadFold_registers _ s id hmem hne
  · intro id h
    exact loadFold_frame _ s id h

theorem loadDevicesFromCSV_spec_witness :
    loadDevicesFromCSV [] (.ok [["id", "name"], ["dev1", "x"], [""], [], ["dev2"]]) =
      .ok [("dev1", emptyDeviceData), ("dev2", emptyDeviceData)] ∧
    storeLookup [("dev1", emptyDeviceData), ("dev2", emptyDeviceData)] "dev1" =
      some emptyDeviceData ∧
    loadDevicesFromCSV [] (.error "no such file") =
      .error "failed to read CSV file: no such file" := by
  obtain ⟨⟨s', hok, hreg, _⟩, msg, herr⟩ :=
    loadDevicesFromCSV_spec [] [["id", "name"], ["dev1", "x"], [""], [], ["dev2"]]
      "no such file"
  have hconc :
      loadDevicesFromCSV [] (.ok [["id", "name"], ["dev1", "x"], [""], [], ["dev2"]]) =
      .ok [("dev1", emptyDeviceData), ("dev2", emptyDeviceData)] := by rfl
  have hs' : s' = [("dev1", emptyDeviceData), ("dev2", emptyDeviceData)] :=
    (Except.ok.injEq _ _).mp (hok.symm.trans hconc)
  refine ⟨hconc, ?_, by rfl⟩
  have := hreg "dev1" (by decide) ⟨["dev1", "x"], by simp, by simp⟩
  rw [hs'] at this
  exact this

/-- C5: per-row tolerance, whole-source intolerance. Removing a malformed
(missing- or empty-identifier) non-header row from a readable source does not
change the load result — the row is skipped and every other row still loads —
while an unreadable source makes the whole load fail. -/
theorem load_malformed_row_skipped (s : DeviceStore) (before after : List (List String))
    (bad : List String) (e : String)
    (hbad : bad.head? = none ∨ bad.head? = some "")
    (hbefore : before ≠ []) :
    loadDevicesFromCSV s (.ok (before ++ bad :: after)) =
      loadDevicesFromCSV s (.ok (before ++ after)) ∧
    ∃ msg, loadDevicesFromCSV s (.error e) = .error msg := by
  refine ⟨?_, "failed to read CSV file: " ++ e, rfl⟩
  match before with
  | [] => exact absurd rfl hbefore
  | b :: bs =>
      have hskip : ∀ st, loadStep st bad = st := by
        intro st
        rcases hbad with h | h
        · have : bad = [] := by
            match bad with
            | [] => rfl
            | x :: xs => simp at h
          simp [this, loadStep]
        · match bad with
          | [] => simp at h
          | x :: xs =>
              have : x = "" := by simpa using h
              simp [loadStep, this]
      simp only [loadDevicesFromCSV, List.cons_append, List.drop_succ_cons,
        List.drop_zero, List.foldl_append, List.foldl_cons, hskip]

theorem load_malformed_row_skipped_witness :
    loadDevicesFromCSV [] (.ok [["id"], ["dev1"], [""], ["dev2"]]) =
      loadDevicesFromCSV [] (.ok [["id"], ["dev1"], ["dev2"]]) ∧
    loadDevicesFromCSV [] (.ok [["id"], ["dev1"], [""], ["dev2"]]) =
      .ok [("dev1", emptyDeviceData), ("dev2", emptyDeviceData)] := by
  have h := load_malformed_row_skipped [] [["id"], ["dev1"]] [["dev2"]] [""] "boom"
    (by decide) (by decide)
  exact ⟨h.1, by rfl⟩

/-! ## Min/max and sortedness lemmas -/

theorem foldl_min_le_init : ∀ (xs : List Int) (a : Int), xs.foldl min a ≤ a
  | [], a => le_refl a
  | x :: xs, a => le_trans (foldl_min_le_init xs (min a x)) (min_le_left a x)

theorem foldl_min_le_mem : ∀ (xs : List Int) (a x : Int), x ∈ xs → xs.foldl min a ≤ x
  | x' :: xs, a, x, h => by
      rcases List.mem_cons.mp h with rfl | h
      · exact le_trans (foldl_min_le_init xs (min a x)) (min_le_right a x)
      · exact foldl_min_le_mem xs (min a x') x h

theorem foldl_min_mem : ∀ (xs : List Int) (a : Int), xs.foldl min a ∈ a :: xs
  | [], a => by simp
  | x :: xs, a => by
      have h := foldl_min_mem xs (min a x)
      rcases List.mem_cons.mp h with h | h
      · rcases min_choice a x with h' | h'
        · rw [List.foldl_cons, h, h']; exact List.mem_cons_self _ _
        · rw [List.foldl_cons, h, h']
          exact List.mem_cons_of_mem _ (List.mem_cons_self _ _)
      · exact List.mem_cons_of_mem _ (List.mem_cons_of_mem _ h)

theorem init_le_foldl_max : ∀ (xs : List Int) (a : Int), a ≤ xs.foldl max a
  | [], a => le_refl a
  | x :: xs, a => le_trans (le_max_left a x) (init_le_foldl_max xs (max a x))

theorem mem_le_foldl_max : ∀ (xs : List Int) (a x : Int), x ∈ xs → x ≤ xs.foldl max a
  | x' :: xs, a, x, h => by
      rcases List.mem_cons.mp h with rfl | h
      · exact le_trans (le_max_right a x) (init_le_foldl_max xs (max a x))
      · exact mem_le_foldl_max xs (max a x') x h

theorem foldl_max_mem : ∀ (xs : List Int) (a : Int), xs.foldl max a ∈ a :: xs
  | [], a => by simp
  | x :: xs, a => by
      have h := foldl_max_mem xs (max a x)
      rcases List.mem_cons.mp h with h | h
      · rcases max_choice a x with h' | h'
        · rw [List.foldl_cons, h, h']; exact List.mem_cons_self _ _
        · rw [List.foldl_cons, h, h']
          exact List.mem_cons_of_mem _ (List.mem_cons_self _ _)
      · exact List.mem_cons_of_mem _ (List.mem_cons_of_mem _ h)

theorem listMinD_le (l : List Int) (dflt : Int) : ∀ x ∈ l, listMinD l dflt ≤ x := by
  match l with
  | [] => simp
  | x :: xs =>
      intro y hy
      rcases List.mem_cons.mp hy with rfl | hy
      · exact foldl_min_le_init xs y
      · exact foldl_min_le_mem xs x y hy

theorem listMinD_mem (l : List Int) (dflt : Int) (h : l ≠ []) : listMinD l dflt ∈ l := by
  match l with
  | [] => exact absurd rfl h
  | x :: xs => exact foldl_min_mem xs x

theorem le_listMaxD (l : List Int) (dflt : Int) : ∀ x ∈ l, x ≤ listMaxD l dflt := by
  match l with
  | [] => simp
  | x :: xs =>
      intro y hy
      rcases List.mem_cons.mp hy with rfl | hy
      · exact init_le_foldl_max xs y
      · exact mem_le_foldl_max xs x y hy

theorem listMaxD_mem (l : List Int) (dflt : Int) (h : l ≠ []) : listMaxD l dflt ∈ l := by
  match l with
  | [] => exact absurd rfl h
  | x :: xs => exact foldl_max_mem xs x

theorem headD_mem (l : List Int) (dflt : Int) (h : l ≠ []) : l.headD dflt ∈ l := by
  match l with
  | [] => exact absurd rfl h
  | x :: xs => exact List.mem_cons_self _ _

theorem getLastD_mem : ∀ (l : List Int) (dflt : Int), l ≠ [] → l.getLastD dflt ∈ l
  | [], _, h => absurd rfl h
  | [a], _, _ => by simp
  | a :: b :: t, dflt, _ => by
      rw [List.getLastD_cons]
      exact List.mem_cons_of_mem _ (getLastD_mem (b :: t) a (by simp))

theorem sorted_headD_le {s : List Int} (hs : List.Sorted (· ≤ ·) s) :
    ∀ x ∈ s, s.headD 0 ≤ x := by
  match s with
  | [] => simp
  | a :: rest =>
      intro x hx
      rcases List.mem_cons.mp hx with rfl | hx
      · simp
      · simpa using (List.sorted_cons.mp hs).1 x hx

theorem sorted_le_getLastD : ∀ {s : List Int}, List.Sorted (· ≤ ·) s →
    ∀ x ∈ s, x ≤ s.getLastD 0
  | [], _, x, hx => by simp at hx
  | [a], _, x, hx => by
      rcases List.mem_cons.mp hx with rfl | hx
      · simp
      · simp at hx
  | a :: b :: t, hs, x, hx => by
      rw [List.getLastD_cons]
      have hrest := (List.sorted_cons.mp hs).2
      have hval : (b :: t).getLastD a = (b :: t).getLastD 0 := by
        rw [List.getLastD_cons, List.getLastD_cons]
      rw [hval]
      rcases List.mem_cons.mp hx with rfl | hx
      · exact le_trans
          ((List.sorted_cons.mp hs).1 _ (getLastD_mem (b :: t) 0 (by simp)))
          (le_refl _)
      · exact sorted_le_getLastD hrest x hx

theorem insertionSort_ne_nil {l : List Int} (h : l ≠ []) :
    List.insertionSort (· ≤ ·) l ≠ [] := by
  intro hnil
  apply h
  have := (List.perm_insertionSort (· ≤ ·) l).length_eq
  rw [hnil] at this
  exact List.eq_nil_of_length_eq_zero this.symm

theorem sort_headD_eq_listMinD (l : List Int) (h : l ≠ []) :
    (List.insertionSort (· ≤ ·) l).headD 0 = listMinD l 0 := by
  have hperm := List.perm_insertionSort (· ≤ ·) l
  have hsorted := List.sorted_insertionSort (· ≤ ·) l
  have hne := insertionSort_ne_nil h
  apply le_antisymm
  · exact sorted_headD_le hsorted _ (hperm.mem_iff.mpr (listMinD_mem l 0 h))
  · exact listMinD_le l 0 _ (hperm.mem_iff.mp (headD_mem _ 0 hne))

theorem sort_getLastD_eq_listMaxD (l : List Int) (h : l ≠ []) :
    (List.insertionSort (· ≤ ·) l).getLastD 0 = listMaxD l 0 := by
  have hperm := List.perm_insertionSort (· ≤ ·) l
  have hsorted := List.sorted_insertionSort (· ≤ ·) l
  have hne := insertionSort_ne_nil h
  apply le_antisymm
  · exact le_listMaxD l 0 _ (hperm.mem_iff.mp (getLastD_mem _ 0 hne))
  · exact sorted_le_getLastD hsorted _ (hperm.mem_iff.mpr (listMaxD_mem l 0 h))

/-- The code's sort-based uptime agrees with the spec's min/max wording as
long as the span fits in the `Duration` (int64) range, so that the code's
saturating `time.Time.Sub` returns the exact difference. -/
theorem calculateUptime_eq_specUptime (l : List Int)
    (hspan : listMaxD l 0 - listMinD l 0 ≤ 2 ^ 63 - 1) :
    calculateUptime l = specUptime l := by
  by_cases h0 : l.length = 0
  · simp [calculateUptime, specUptime, h0]
  · by_cases h1 : l.length = 1
    · simp [calculateUptime, specUptime, h0, h1]
    · have hne : l ≠ [] := by
        intro h
        exact h0 (by simp [h])
      have hle : listMinD l 0 ≤ listMaxD l 0 :=
        listMinD_le l 0 _ (listMaxD_mem l 0 hne)
      simp only [calculateUptime, specUptime, if_neg h0, if_neg h1]
      rw [sort_headD_eq_listMinD l hne, sort_getLastD_eq_listMaxD l hne]
      have ht : timeSub (listMaxD l 0) (listMinD l 0) =
          listMaxD l 0 - listMinD l 0 := by
        unfold timeSub
        rw [if_neg (by omega), if_neg (by omega)]
      rw [ht]

/-- C1, counterexample to the unrestricted claim: at timestamps 0 and 2^64 ns
(about 584 years apart, both valid RFC3339 instants), the program's
`time.Time.Sub` saturates the span at 2^63-1 ns, so its uptime uses the
clamped span while the claim's max-minus-min formula uses the true span, and
the two results differ. -/
theorem calculateUptime_saturation_counterexample :
    calculateUptime [0, 18446744073709551616] ≠
      specUptime [0, 18446744073709551616] ∧
    calculateUptime [0, 18446744073709551616] =
      (2 * 100 * 60000000000 : ℚ) / (2 ^ 63 - 1) ∧
    specUptime [0, 18446744073709551616] =
      (2 * 100 * 60000000000 : ℚ) / 2 ^ 64 := by
  have hsort : List.insertionSort (· ≤ ·) ([0, 18446744073709551616] : List Int) =
      [0, 18446744073709551616] := by
    norm_num [List.insertionSort, List.orderedInsert]
  have hcalc : calculateUptime [0, 18446744073709551616] =
      (2 * 100 * 60000000000 : ℚ) / (2 ^ 63 - 1) := by
    simp only [calculateUptime, hsort]
    norm_num [timeSub, minuteNs, List.getLastD]
  have hspec : specUptime [0, 18446744073709551616] =
      (2 * 100 * 60000000000 : ℚ) / 2 ^ 64 := by
    simp only [specUptime, listMinD, listMaxD]
    norm_num [minuteNs, min_def, max_def]
  refine ⟨?_, hcalc, hspec⟩
  rw [hcalc, hspec]
  norm_num

/-- C1 (amended): the code's uptime follows the spec's case analysis — 0 for
the empty sequence, 100 for a single timestamp, and otherwise the count
divided by the span between the maximum and minimum timestamp in fractional
minutes, scaled by 100, with sub-minute spans mapped to 100 (`specUptime` is
that case analysis verbatim) — provided the span is at most 2^63-1 ns, the
`Duration` range within which the code's saturating subtraction is exact. -/
theorem calculateUptime_case_analysis :
    calculateUptime [] = 0 ∧
    (∀ t : Int, calculateUptime [t] = 100) ∧
    (∀ l : List Int, listMaxD l 0 - listMinD l 0 ≤ 2 ^ 63 - 1 →
      calculateUptime l = specUptime l) :=
  ⟨by simp [calculateUptime],
   fun t => by simp [calculateUptime],
   fun l h => calculateUptime_eq_specUptime l h⟩

theorem insertionSort_eq_of_perm {l l' : List Int} (h : l.Perm l') :
    List.insertionSort (· ≤ ·) l = List.insertionSort (· ≤ ·) l' :=
  List.eq_of_perm_of_sorted
    ((List.perm_insertionSort _ l).trans (h.trans (List.perm_insertionSort _ l').symm))
    (List.sorted_insertionSort _ l) (List.sorted_insertionSort _ l')

/-- C4: uptime is invariant under permutation of the heartbeat sequence. -/
theorem calculateUptime_perm_invariant {l l' : List Int} (h : l.Perm l') :
    calculateUptime l = calculateUptime l' := by
  unfold calculateUptime
  rw [h.length_eq, insertionSort_eq_of_perm h]

theorem calculateUptime_perm_invariant_witness :
    ([0, 180000000000, 0, 60000000000, 120000000000] : List Int).Perm
      [0, 0, 60000000000, 120000000000, 180000000000] ∧
    calculateUptime [0, 180000000000, 0, 60000000000, 120000000000] =
      calculateUptime [0, 0, 60000000000, 120000000000, 180000000000] :=
  ⟨by decide, calculateUptime_perm_invariant (by decide)⟩

/-- C7: exact unbounded-above uptime values — five heartbeats one minute
apart give exactly 125 (above 100), and heartbeats at t, t+1m, t+5m give
exactly 60, for every base timestamp t. -/
theorem calculateUptime_exact_values (t : Int) :
    calculateUptime [t, t + 60000000000, t + 120000000000, t + 180000000000,
        t + 240000000000] = 125 ∧
    100 < calculateUptime [t, t + 60000000000, t + 120000000000, t + 180000000000,
        t + 240000000000] ∧
    calculateUptime [t, t + 60000000000, t + 300000000000] = 60 := by
  have h125 : calculateUptime [t, t + 60000000000, t + 120000000000,
      t + 180000000000, t + 240000000000] = 125 := by
    have hmin : listMinD [t, t + 60000000000, t + 120000000000, t + 180000000000,
        t + 240000000000] 0 = t := by
      apply le_antisymm
      · exact listMinD_le _ 0 t (by simp)
      · have hm := listMinD_mem [t, t + 60000000000, t + 120000000000,
          t + 180000000000, t + 240000000000] 0 (by simp)
        simp only [List.mem_cons, List.not_mem_nil, or_false] at hm
        rcases hm with h | h | h | h | h <;> omega
    have hmax : listMaxD [t, t + 60000000000, t + 120000000000, t + 180000000000,
        t + 240000000000] 0 = t + 240000000000 := by
      apply le_antisymm
      · have hm := listMaxD_mem [t, t + 60000000000, t + 120000000000,
          t + 180000000000, t + 240000000000] 0 (by simp)
        simp only [List.mem_cons, List.not_mem_nil, or_false] at hm
        rcases hm with h | h | h | h | h <;> omega
      · exact le_listMaxD _ 0 (t + 240000000000) (by simp)
    rw [calculateUptime_eq_specUptime _ (by rw [hmin, hmax]; omega)]
    simp only [specUptime, hmin, hmax, List.length_cons, List.length_nil, minuteNs]
    norm_num
  have h60 : calculateUptime [t, t + 60000000000, t + 300000000000] = 60 := by
    have hmin : listMinD [t, t + 60000000000, t + 300000000000] 0 = t := by
      apply le_antisymm
      · exact listMinD_le _ 0 t (by simp)
      · have hm := listMinD_mem [t, t + 60000000000, t + 300000000000] 0 (by simp)
        simp only [List.mem_cons, List.not_mem_nil, or_false] at hm
        rcases hm with h | h | h <;> omega
    have hmax : listMaxD [t, t + 60000000000, t + 300000000000] 0 =
        t + 300000000000 := by
      apply le_antisymm
      · have hm := listMaxD_mem [t, t + 60000000000, t + 300000000000] 0 (by simp)
        simp only [List.mem_cons, List.not_mem_nil, or_false] at hm
        rcases hm with h | h | h <;> omega
      · exact le_listMaxD _ 0 (t + 300000000000) (by simp)
    rw [calculateUptime_eq_specUptime _ (by rw [hmin, hmax]; omega)]
    simp only [specUptime, hmin, hmax, List.length_cons, List.length_nil, minuteNs]
    norm_num
  exact ⟨h125, by rw [h125]; norm_num, h60⟩

/-! ## Totality (C8) -/

theorem calculateUptimeChecked_eq (l : List Int) :
    calculateUptimeChecked l = some (calculateUptime l) := by
  by_cases h0 : l.length = 0
  · simp [calculateUptimeChecked, calculateUptime, h0]
  · by_cases h1 : l.length = 1
    · simp [calculateUptimeChecked, calculateUptime, h0, h1]
    · have hminuteQ : ((minuteNs : Int) : ℚ) ≠ 0 := by norm_num [minuteNs]
      simp only [calculateUptimeChecked, calculateUptime, if_neg h0, if_neg h1,
        divQChecked, if_neg hminuteQ, Option.bind_some]
      set minutes : ℚ := (((timeSub ((List.insertionSort (· ≤ ·) l).getLastD 0)
        ((List.insertionSort (· ≤ ·) l).headD 0) : Int) : ℚ)) / ((minuteNs : Int) : ℚ)
        with hm
      by_cases hlt : minutes < 1
      · simp [hlt]
      · have hne : minutes ≠ 0 := by
          intro h
          rw [h] at hlt
          exact hlt (by norm_num)

        simp [hlt, hne]

theorem calculateAvgUploadTimeChecked_eq (l : List Int) :
    calculateAvgUploadTimeChecked l = some (calculateAvgUploadTime l) := by
  by_cases h0 : l.length = 0
  · simp [calculateAvgUploadTimeChecked, calculateAvgUploadTime, h0]
  · have hne : (l.length : Int) ≠ 0 := by
      simpa using h0
    simp [calculateAvgUploadTimeChecked, calculateAvgUploadTime, h0,
      divIntChecked, hne]

/-- C8: the two statistics functions are total — for every input sequence the
division-checked variants succeed (every divisor on the taken control path is
non-zero) and return exactly the unchecked results. -/
theorem statisticsEngine_total (l l' : List Int) :
    calculateUptimeChecked l = some (calculateUptime l) ∧
    calculateAvgUploadTimeChecked l' = some (calculateAvgUploadTime l') :=
  ⟨calculateUptimeChecked_eq l, calculateAvgUploadTimeChecked_eq l'⟩

/-! ## Average upload time (C2) -/

theorem wrap64_eq_of_range (x : Int) (hlo : -(2 ^ 63) ≤ x) (hhi : x < 2 ^ 63) :
    wrap64 x = x := by
  unfold wrap64
  have h1 : (0 : Int) ≤ x + 2 ^ 63 := by omega
  have h2 : x + 2 ^ 63 < 2 ^ 64 := by omega
  rw [Int.emod_eq_of_lt h1 h2]
  omega

theorem wrapFold_eq_sum : ∀ (l : List Int) (acc : Int),
    (∀ n ≤ l.length, -(2 ^ 63) ≤ acc + (l.take n).sum ∧ acc + (l.take n).sum < 2 ^ 63) →
    l.foldl (fun a t => wrap64 (a + t)) acc = acc + l.sum := by
  intro l
  induction l with
  | nil => intro acc _; simp
  | cons x xs ih =>
      intro acc h
      have hx : -(2 ^ 63) ≤ acc + x ∧ acc + x < 2 ^ 63 := by
        have := h 1 (by simp)
        simpa using this
      rw [List.foldl_cons, wrap64_eq_of_range _ hx.1 hx.2,
        ih (acc + x) ?_, List.sum_cons]
      · ring
      · intro n hn
        have := h (n + 1) (by simpa using Nat.succ_le_succ hn)
        simpa [List.take_succ_cons, add_assoc] using this

/-- C2, amended: for sequences whose running `int64` sum never overflows, the
average upload time is the `Duration.String` formatting of the truncating
integer average of the inputs, with "0s" for the empty sequence; the
formatting itself renders whole seconds without a decimal point, non-whole
seconds with minimal decimal digits, and sub-second values in the largest
applicable sub-second unit. -/
theorem calculateAvgUploadTime_formats_average (l : List Int)
    (h : ∀ n ≤ l.length, -(2 ^ 63) ≤ (l.take n).sum ∧ (l.take n).sum < 2 ^ 63) :
    calculateAvgUploadTime l =
      (if l.length = 0 then "0s"
       else durationString (l.sum.tdiv (l.length : Int))) ∧
    durationString 6000000000 = "6s" ∧
    durationString 7500000000 = "7.5s" ∧
    durationString 2000000 = "2ms" ∧
    durationString 2333 = "2.333µs" := by
  refine ⟨?_, by rfl, by rfl, by rfl, by rfl⟩
  by_cases h0 : l.length = 0
  · simp [calculateAvgUploadTime, h0]
  · simp only [calculateAvgUploadTime, if_neg h0]
    rw [wrapFold_eq_sum l 0 (by simpa using h)]
    simp

theorem calculateAvgUploadTime_formats_average_witness :
    calculateAvgUploadTime [5000000000, 10000000000] = "7.5s" := by
  have h := calculateAvgUploadTime_formats_average [5000000000, 10000000000]
    (by decide)
  exact h.1.trans (by rfl)

/-- C2, counterexample to the unrestricted claim: with two upload durations of
2^63-1 ns each (valid `int64` values), the Go `int64` running sum wraps to -2,
so the code returns "-1ns", not the formatting of the true truncating average
`sum / count`. -/
theorem calculateAvgUploadTime_overflow_counterexample :
    calculateAvgUploadTime [9223372036854775807, 9223372036854775807] ≠
      durationString ((9223372036854775807 + 9223372036854775807 : Int).tdiv 2) ∧
    calculateAvgUploadTime [9223372036854775807, 9223372036854775807] = "-1ns" ∧
    durationString ((9223372036854775807 + 9223372036854775807 : Int).tdiv 2) =
      "2562047h47m16.854775807s" := by
  have h1 : calculateAvgUploadTime [9223372036854775807, 9223372036854775807] =
      "-1ns" := by rfl
  have h2 : durationString ((9223372036854775807 + 9223372036854775807 : Int).tdiv 2) =
      "2562047h47m16.854775807s" := by rfl
  refine ⟨?_, h1, h2⟩
  rw [h1, h2]
  decide

theorem calculateUptime_case_analysis_witness :
    calculateUptime [] = 0 ∧
    calculateUptime [42] = 100 ∧
    listMaxD [0, 60000000000] 0 - listMinD [0, 60000000000] 0 ≤ 2 ^ 63 - 1 ∧
    calculateUptime [0, 60000000000] = specUptime [0, 60000000000] :=
  ⟨calculateUptime_case_analysis.1,
   calculateUptime_case_analysis.2.1 42,
   by decide,
   calculateUptime_case_analysis.2.2 [0, 60000000000] (by decide)⟩

theorem calculateUptime_exact_values_witness :
    calculateUptime [0, 60000000000, 120000000000, 180000000000, 240000000000] = 125 ∧
    calculateUptime [0, 60000000000, 300000000000] = 60 := by
  have h := calculateUptime_exact_values 0
  norm_num at h
  exact ⟨h.1, h.2.2⟩

theorem statisticsEngine_total_witness :
    calculateUptimeChecked [0, 60000000000, 300000000000] =
      some (calculateUptime [0, 60000000000, 300000000000]) ∧
    calculateAvgUploadTimeChecked [5000000000, 10000000000] =
      some (calculateAvgUploadTime [5000000000, 10000000000]) :=
  statisticsEngine_total _ _

end FleetMonitor
